import Mathlib

/-!
Shallow embedding of the persistent-buff crate (src/lib.rs).

The crate exposes a RAM region that survives soft resets.  We model the
region contents as a list of byte values (natural numbers, masked to a
byte on every read), the process-wide ownership flag PERSISTENT_BUFF_TAKEN
as a boolean in a system state, and the managed handle PersistentBuff as
the current contents of the whole region: its magic pointer views the
first four bytes, its buff field views the rest.

Machine-level u32 reads and writes through the magic pointer are modelled
little-endian; read_unaligned masks every memory cell to a byte so that
the model is total on arbitrary lists.  A Rust panic (the slice index
b[4..] on a too-short region) is modelled as the none case of an Option.
A closure FnOnce(&mut [u8]) is modelled as a function on the payload list,
and validate additionally returns how many times it invoked the closure.
-/

/-- MAGIC_NUMBER from src/lib.rs line 75. -/
def MAGIC_NUMBER : Nat := 0xFAB42069

/-- Little-endian u32 read of the first four bytes of a list, masking every
cell to a byte; models self.magic.read_unaligned(). -/
def readU32LE (l : List Nat) : Nat :=
  l.getD 0 0 % 256 + 256 * (l.getD 1 0 % 256) + 65536 * (l.getD 2 0 % 256)
    + 16777216 * (l.getD 3 0 % 256)

/-- Little-endian u32 write into the first four bytes of a list; models
self.magic.write_unaligned(v). -/
def writeU32LE (l : List Nat) (v : Nat) : List Nat :=
  (((l.set 0 (v % 256)).set 1 (v / 256 % 256)).set 2 (v / 65536 % 256)).set 3
    (v / 16777216 % 256)

/-- The managed handle: mem is the current contents of the whole reserved
region; the magic pointer views mem[0..4), the buff field views mem[4..). -/
structure PersistentBuff where
  mem : List Nat
deriving DecidableEq

/-- The payload view self.buff, the region after the four marker bytes. -/
def PersistentBuff.buff (p : PersistentBuff) : List Nat :=
  p.mem.drop 4

/-- PersistentBuff::mark, writes MAGIC_NUMBER through the magic pointer. -/
def PersistentBuff.mark (p : PersistentBuff) : PersistentBuff :=
  ⟨writeU32LE p.mem MAGIC_NUMBER⟩

/-- PersistentBuff::unmark, writes zero through the magic pointer. -/
def PersistentBuff.unmark (p : PersistentBuff) : PersistentBuff :=
  ⟨writeU32LE p.mem 0⟩

/-- PersistentBuff::valid, unaligned read compared against MAGIC_NUMBER. -/
def PersistentBuff.valid (p : PersistentBuff) : Bool :=
  readU32LE p.mem == MAGIC_NUMBER

/-- PersistentBuff::take, returns the payload view only when valid. -/
def PersistentBuff.take (p : PersistentBuff) : Option (List Nat) :=
  if p.valid then some p.buff else none

/-- PersistentBuff::get, returns the payload view only when valid; the body
only reads, so the resulting handle state is returned unchanged. -/
def PersistentBuff.get (p : PersistentBuff) : Option (List Nat) × PersistentBuff :=
  (if p.valid then some p.buff else none, p)

/-- PersistentBuff::validate.  If the handle is not valid, invoke f on the
payload view (in place, so the marker bytes keep their contents), then mark
and return the payload view.  The last component counts how many times f
was invoked during the call. -/
def PersistentBuff.validate (p : PersistentBuff) (f : List Nat → List Nat) :
    PersistentBuff × List Nat × Nat :=
  if p.valid then
    ((p.mark), (p.mark).buff, 0)
  else
    let p1 : PersistentBuff := ⟨p.mem.take 4 ++ f p.buff⟩
    ((p1.mark), (p1.mark).buff, 1)

/-- PersistentBuff::invalidate, calls unmark. -/
def PersistentBuff.invalidate (p : PersistentBuff) : PersistentBuff :=
  p.unmark

/-- A caller mutation through the payload view: buff[i] = v leaves the
marker bytes alone and updates byte i of the payload. -/
def PersistentBuff.setPayload (p : PersistentBuff) (i v : Nat) : PersistentBuff :=
  ⟨p.mem.take 4 ++ p.buff.set i v⟩

/-- Process-wide state: the PERSISTENT_BUFF_TAKEN flag and the region
contents.  The flag starts false at process start and does not survive a
reboot; the region contents do. -/
structure SysState where
  taken : Bool
  region : List Nat
deriving DecidableEq

/-- PersistentBuff::steal, unconditionally stores true into the flag and
returns the region slice. -/
def steal (s : SysState) : List Nat × SysState :=
  (s.region, { s with taken := true })

/-- PersistentBuff::take_raw, atomic swap(true) on the flag; if it was
already set return None, otherwise the region slice via steal. -/
def take_raw (s : SysState) : Option (List Nat) × SysState :=
  if s.taken then
    (none, { s with taken := true })
  else
    (some (steal { s with taken := true }).1, (steal { s with taken := true }).2)

/-- The slice index b[i..]: some (b.drop i) when i is in bounds, none when
the index operation would panic. -/
def sliceFrom (b : List Nat) (i : Nat) : Option (List Nat) :=
  if i ≤ b.length then some (b.drop i) else none

/-- PersistentBuff::take_managed.  Outer none models the panic of the slice
index b[4..]; some none is the already-taken outcome of take_raw; some
(some h) is a fresh managed handle over the region. -/
def take_managed (s : SysState) : Option (Option PersistentBuff) × SysState :=
  match take_raw s with
  | (none, s1) => (some none, s1)
  | (some b, s1) =>
    match sliceFrom b 4 with
    | none => (none, s1)
    | some _ => (some (some ⟨b⟩), s1)

/-- PersistentBuff::steal_managed.  none models the panic of the slice
index b[4..]; there is no already-taken case. -/
def steal_managed (s : SysState) : Option PersistentBuff × SysState :=
  match steal s with
  | (b, s1) =>
    match sliceFrom b 4 with
    | none => (none, s1)
    | some _ => (some ⟨b⟩, s1)

/-- Results of n successive take_raw calls in one process run. -/
def takeRawRun : SysState → Nat → List (Option (List Nat))
  | _, 0 => []
  | s, n + 1 => (take_raw s).1 :: takeRawRun (take_raw s).2 n

/-!  Address-indexed memory model for the alignment claim.  Memory is a
function from addresses to cell contents, masked to a byte on read; the
marker operations act at an arbitrary base address, exactly as the
unaligned pointer accesses in the source do. -/

/-- Byte-addressed memory. -/
abbrev Mem : Type := Nat → Nat

/-- Store one byte at an address. -/
def writeByte (m : Mem) (a v : Nat) : Mem :=
  fun x => if x = a then v else m x

/-- ptr::write_unaligned of a u32 at an arbitrary base address,
little-endian, one byte store per address. -/
def writeU32At (m : Mem) (base v : Nat) : Mem :=
  writeByte (writeByte (writeByte (writeByte m base (v % 256))
    (base + 1) (v / 256 % 256)) (base + 2) (v / 65536 % 256))
    (base + 3) (v / 16777216 % 256)

/-- ptr::read_unaligned of a u32 at an arbitrary base address,
little-endian, masking every cell to a byte. -/
def readU32At (m : Mem) (base : Nat) : Nat :=
  m base % 256 + 256 * (m (base + 1) % 256) + 65536 * (m (base + 2) % 256)
    + 16777216 * (m (base + 3) % 256)

/-- PersistentBuff::mark at the address level. -/
def markAt (m : Mem) (base : Nat) : Mem :=
  writeU32At m base MAGIC_NUMBER

/-- PersistentBuff::unmark at the address level. -/
def unmarkAt (m : Mem) (base : Nat) : Mem :=
  writeU32At m base 0

/-- PersistentBuff::valid at the address level. -/
def validAt (m : Mem) (base : Nat) : Bool :=
  readU32At m base == MAGIC_NUMBER

/-! Concrete handles, initializers and scenario states.  The end-to-end
scenario of the spec runs three boots over one 16-byte region initially
filled with 0xFF; the flag is reset between boots, the memory is not. -/

/-- A 16-byte region filled with 0xFF. -/
def regionFF : List Nat := List.replicate 16 255

/-- Managed handle over the 0xFF-filled region. -/
def handleFF : PersistentBuff := ⟨regionFF⟩

/-- The initializer p.fill(0) of the scenario. -/
def fillZero : List Nat → List Nat := fun b => List.replicate b.length 0

/-- A second initializer, writing sevens, used to observe invocations. -/
def fillSeven : List Nat → List Nat := fun b => List.replicate b.length 7

/-- Twelve payload bytes of nine, a caller mutation image. -/
def bytes9 : List Nat := List.replicate 12 9

/-- Boot one of the scenario: validate with fill(0). -/
def boot1Val : PersistentBuff × List Nat × Nat := handleFF.validate fillZero

/-- Boot one after the caller sets payload[0] = 1. -/
def boot1End : PersistentBuff := (boot1Val.1).setPayload 0 1

/-- The caller action of the later boots: increment payload[0]. -/
def bumpPayload (p : PersistentBuff) : PersistentBuff :=
  p.setPayload 0 (p.buff.getD 0 0 + 1)

/-- Boot two reacquires the same memory after the flag-only reset. -/
def boot2Pre : PersistentBuff := ⟨boot1End.mem⟩

/-- Boot two validates with a no-op initializer. -/
def boot2Val : PersistentBuff × List Nat × Nat := boot2Pre.validate (fun b => b)

/-- Boot two after the caller increments payload[0]. -/
def boot2End : PersistentBuff := bumpPayload boot2Val.1

/-- Boot three reacquires the same memory after another flag-only reset. -/
def boot3Pre : PersistentBuff := ⟨boot2End.mem⟩

/-- Boot three validates with a no-op initializer. -/
def boot3Val : PersistentBuff × List Nat × Nat := boot3Pre.validate (fun b => b)

/-- Boot three after the caller increments payload[0]. -/
def boot3End : PersistentBuff := bumpPayload boot3Val.1

/-! Basic lemmas about the byte-level operations. -/

theorem readU32LE_writeU32LE (l : List Nat) (v : Nat) (h : 4 ≤ l.length) :
    readU32LE (writeU32LE l v) = v % 4294967296 := by
  match l, h with
  | a :: b :: c :: d :: t, _ =>
    simp only [writeU32LE, readU32LE, List.set, List.getD, List.get?, List.getElem?_cons_zero,
      List.getElem?_cons_succ, Option.getD_some]
    omega

theorem writeU32LE_drop4 (l : List Nat) (v : Nat) :
    (writeU32LE l v).drop 4 = l.drop 4 := by
  match l with
  | [] => rfl
  | [a] => rfl
  | [a, b] => rfl
  | [a, b, c] => rfl
  | a :: b :: c :: d :: t => rfl

theorem writeU32LE_length (l : List Nat) (v : Nat) :
    (writeU32LE l v).length = l.length := by
  simp [writeU32LE]

theorem readU32LE_take4_append (l : List Nat) (bs : List Nat) (h : 4 ≤ l.length) :
    readU32LE (l.take 4 ++ bs) = readU32LE l := by
  match l, h with
  | a :: b :: c :: d :: t, _ =>
    simp [readU32LE, List.take, List.getD]

theorem take4_append_drop4 (l : List Nat) (bs : List Nat) (h : 4 ≤ l.length) :
    (l.take 4 ++ bs).drop 4 = bs := by
  match l, h with
  | a :: b :: c :: d :: t, _ => rfl

theorem PersistentBuff.mark_buff (p : PersistentBuff) : p.mark.buff = p.buff := by
  simp [PersistentBuff.mark, PersistentBuff.buff, writeU32LE_drop4]

theorem PersistentBuff.mark_length (p : PersistentBuff) :
    p.mark.mem.length = p.mem.length := by
  simp [PersistentBuff.mark, writeU32LE_length]

theorem PersistentBuff.valid_mark (p : PersistentBuff) (h : 4 ≤ p.mem.length) :
    p.mark.valid = true := by
  simp only [PersistentBuff.valid, PersistentBuff.mark]
  rw [readU32LE_writeU32LE _ _ h]
  decide

theorem PersistentBuff.valid_unmark (p : PersistentBuff) (h : 4 ≤ p.mem.length) :
    p.unmark.valid = false := by
  simp only [PersistentBuff.valid, PersistentBuff.unmark]
  rw [readU32LE_writeU32LE _ _ h]
  decide

theorem validate_fst_valid (p : PersistentBuff) (f : List Nat → List Nat)
    (h : 4 ≤ p.mem.length) : ((p.validate f).1).valid = true := by
  cases hv : p.valid with
  | true =>
    simp only [PersistentBuff.validate, hv, if_pos]
    exact PersistentBuff.valid_mark p h
  | false =>
    simp only [PersistentBuff.validate, hv, Bool.false_eq_true, if_false]
    apply PersistentBuff.valid_mark
    simp only [List.length_append, List.length_take]
    omega

theorem validate_fst_length (p : PersistentBuff) (f : List Nat → List Nat)
    (h : 4 ≤ p.mem.length) : 4 ≤ ((p.validate f).1).mem.length := by
  cases hv : p.valid with
  | true =>
    simpa only [PersistentBuff.validate, hv, if_pos, PersistentBuff.mark_length]
  | false =>
    simp only [PersistentBuff.validate, hv, Bool.false_eq_true, if_false,
      PersistentBuff.mark_length]
    simp only [List.length_append, List.length_take]
    omega

theorem validate_of_valid (p : PersistentBuff) (g : List Nat → List Nat)
    (hv : p.valid = true) : (p.validate g).2.2 = 0 ∧ (p.validate g).1.buff = p.buff := by
  refine ⟨?_, ?_⟩ <;> simp [PersistentBuff.validate, hv, PersistentBuff.mark_buff]

theorem takeRawRun_taken (r : List Nat) (n : Nat) :
    takeRawRun ⟨true, r⟩ n = List.replicate n none := by
  induction n with
  | zero => rfl
  | succ n ih => simp [takeRawRun, take_raw, steal, ih, List.replicate_succ]

/-- C1: from a fresh process state (flag false) the first take_raw returns
the region and every later take_raw of the run returns none; take_managed
in an already-taken state reports the empty (already-owned) outcome. -/
theorem c1_checked_acquisition_once (r : List Nat) (n : Nat) :
    takeRawRun ⟨false, r⟩ (n + 1) = some r :: List.replicate n none
    ∧ (take_managed ⟨true, r⟩).1 = some none := by
  refine ⟨?_, rfl⟩
  simp [takeRawRun, take_raw, steal, takeRawRun_taken]

/-- C7: steal always stores true into the flag and returns the region
whatever the prior state; afterwards any checked acquisition of the run
returns the empty result. -/
theorem c7_steal_unconditional (s : SysState) :
    steal s = (s.region, ⟨true, s.region⟩)
    ∧ (take_raw (steal s).2).1 = none
    ∧ (take_managed (steal s).2).1 = some none := by
  cases s
  exact ⟨rfl, rfl, rfl⟩

/-- C10: on a region shorter than the 4 marker bytes the managed
constructors hit the panic of the slice index b[4..] (the none outcome)
instead of returning an error value. -/
theorem c10_short_region_panics (r : List Nat) (t : Bool) (h : r.length < 4) :
    (take_managed ⟨false, r⟩).1 = none ∧ (steal_managed ⟨t, r⟩).1 = none := by
  have h4 : ¬ (4 ≤ r.length) := by omega
  refine ⟨?_, ?_⟩ <;> simp [take_managed, take_raw, steal, steal_managed, sliceFrom, h4]

theorem c10_short_region_panics_witness :
    ([0, 0, 0] : List Nat).length < 4
    ∧ ((take_managed ⟨false, [0, 0, 0]⟩).1 = none
      ∧ (steal_managed ⟨false, [0, 0, 0]⟩).1 = none) :=
  ⟨by decide, c10_short_region_panics [0, 0, 0] false (by decide)⟩

/-- C6: for any region of at least 4 bytes the managed acquisition
succeeds and the payload view is exactly region length minus 4 bytes,
including the minimum region of exactly 4 bytes with empty payload. -/
theorem c6_payload_length (r : List Nat) (h : 4 ≤ r.length) :
    (take_managed ⟨false, r⟩).1 = some (some ⟨r⟩)
    ∧ (PersistentBuff.mk r).buff.length = r.length - 4 := by
  refine ⟨?_, ?_⟩
  · simp [take_managed, take_raw, steal, sliceFrom, h]
  · simp [PersistentBuff.buff]

theorem c6_payload_length_witness :
    4 ≤ (List.replicate 4 0 : List Nat).length
    ∧ ((take_managed ⟨false, List.replicate 4 0⟩).1 = some (some ⟨List.replicate 4 0⟩)
      ∧ (PersistentBuff.mk (List.replicate 4 0)).buff.length
        = (List.replicate 4 0 : List Nat).length - 4) :=
  ⟨by decide, c6_payload_length (List.replicate 4 0) (by decide)⟩

/-- C2: a handle whose marker bytes read back differently from
MAGIC_NUMBER is not valid; validate then invokes the initializer exactly
once, on the payload view, and leaves the handle valid. -/
theorem c2_invalid_validate_invokes_once (p : PersistentBuff) (f : List Nat → List Nat)
    (hm : readU32LE p.mem ≠ MAGIC_NUMBER) (h4 : 4 ≤ p.mem.length) :
    p.valid = false
    ∧ (p.validate f).2.2 = 1
    ∧ ((p.validate f).1).valid = true
    ∧ (p.validate f).2.1 = f p.buff := by
  have hv : p.valid = false := by simp [PersistentBuff.valid, hm]
  refine ⟨hv, ?_, validate_fst_valid p f h4, ?_⟩
  · simp [PersistentBuff.validate, hv]
  · simp only [PersistentBuff.validate, hv, Bool.false_eq_true, if_false]
    rw [PersistentBuff.mark_buff]
    simp only [PersistentBuff.buff]
    exact take4_append_drop4 _ _ h4

theorem c2_invalid_validate_invokes_once_witness :
    readU32LE handleFF.mem ≠ MAGIC_NUMBER
    ∧ 4 ≤ handleFF.mem.length
    ∧ (handleFF.valid = false
      ∧ (handleFF.validate fillZero).2.2 = 1
      ∧ ((handleFF.validate fillZero).1).valid = true
      ∧ (handleFF.validate fillZero).2.1 = fillZero handleFF.buff) :=
  ⟨by decide, by decide,
    c2_invalid_validate_invokes_once handleFF fillZero (by decide) (by decide)⟩

/-- C3: after a completed validate, a second validate with any closure g
does not invoke g and leaves the payload bytes unchanged; the same holds
after any intervening caller mutation of the payload view. -/
theorem c3_second_validate_noop (p : PersistentBuff) (f g : List Nat → List Nat)
    (bs : List Nat) (h4 : 4 ≤ p.mem.length) :
    (((p.validate f).1).validate g).2.2 = 0
    ∧ (((p.validate f).1).validate g).1.buff = ((p.validate f).1).buff
    ∧ ((PersistentBuff.mk (((p.validate f).1).mem.take 4 ++ bs)).validate g).2.2 = 0
    ∧ ((PersistentBuff.mk (((p.validate f).1).mem.take 4 ++ bs)).validate g).1.buff = bs := by
  have hp1v : ((p.validate f).1).valid = true := validate_fst_valid p f h4
  have hp1l : 4 ≤ ((p.validate f).1).mem.length := validate_fst_length p f h4
  have h2v : (PersistentBuff.mk (((p.validate f).1).mem.take 4 ++ bs)).valid = true := by
    simp only [PersistentBuff.valid] at hp1v ⊢
    rw [readU32LE_take4_append _ _ hp1l]
    exact hp1v
  obtain ⟨ha, hb⟩ := validate_of_valid _ g hp1v
  obtain ⟨hc, hd⟩ := validate_of_valid _ g h2v
  refine ⟨ha, hb, hc, ?_⟩
  rw [hd]
  simp only [PersistentBuff.buff]
  exact take4_append_drop4 _ _ hp1l

theorem c3_second_validate_noop_witness :
    4 ≤ handleFF.mem.length
    ∧ (((handleFF.validate fillZero).1.validate fillSeven).2.2 = 0
      ∧ ((handleFF.validate fillZero).1.validate fillSeven).1.buff
        = ((handleFF.validate fillZero).1).buff
      ∧ ((PersistentBuff.mk (((handleFF.validate fillZero).1).mem.take 4 ++ bytes9)).validate
          fillSeven).2.2 = 0
      ∧ ((PersistentBuff.mk (((handleFF.validate fillZero).1).mem.take 4 ++ bytes9)).validate
          fillSeven).1.buff = bytes9) :=
  ⟨by decide, c3_second_validate_noop handleFF fillZero fillSeven bytes9 (by decide)⟩

/-- C4: invalidate writes a non-matching marker so valid reports false,
and the next validate invokes its closure exactly once and restores
validity. -/
theorem c4_invalidate_then_validate (p : PersistentBuff) (f : List Nat → List Nat)
    (h4 : 4 ≤ p.mem.length) :
    (p.invalidate).valid = false
    ∧ ((p.invalidate).validate f).2.2 = 1
    ∧ (((p.invalidate).validate f).1).valid = true := by
  have hinv : (p.invalidate).valid = false := PersistentBuff.valid_unmark p h4
  refine ⟨hinv, ?_, ?_⟩
  · simp [PersistentBuff.validate, hinv]
  · apply validate_fst_valid
    simp [PersistentBuff.invalidate, PersistentBuff.unmark, writeU32LE_length, h4]

theorem c4_invalidate_then_validate_witness :
    4 ≤ (PersistentBuff.mk (List.replicate 8 3)).mem.length
    ∧ (((PersistentBuff.mk (List.replicate 8 3)).invalidate).valid = false
      ∧ (((PersistentBuff.mk (List.replicate 8 3)).invalidate).validate
          (fun b => List.replicate b.length 1)).2.2 = 1
      ∧ ((((PersistentBuff.mk (List.replicate 8 3)).invalidate).validate
          (fun b => List.replicate b.length 1)).1).valid = true) :=
  ⟨by decide,
    c4_invalidate_then_validate (PersistentBuff.mk (List.replicate 8 3))
      (fun b => List.replicate b.length 1) (by decide)⟩

/-- C8: get returns the payload view exactly when the handle is valid and
returns the handle state unchanged; the consuming take returns the payload
view exactly when valid and touches no state. -/
theorem c8_get_take_readonly (p : PersistentBuff) :
    ((p.get).1 = some p.buff ↔ p.valid = true)
    ∧ ((p.get).1 = none ↔ p.valid = false)
    ∧ (p.get).2 = p
    ∧ (p.take = some p.buff ↔ p.valid = true)
    ∧ (p.take = none ↔ p.valid = false) := by
  cases hv : p.valid <;> simp [PersistentBuff.get, PersistentBuff.take, hv]

theorem writeByte_same (m : Mem) (a v : Nat) : writeByte m a v a = v := by
  simp [writeByte]

theorem writeByte_other (m : Mem) (a v x : Nat) (h : x ≠ a) : writeByte m a v x = m x := by
  simp [writeByte, h]

theorem readU32At_writeU32At (m : Mem) (base v : Nat) :
    readU32At (writeU32At m base v) base = v % 4294967296 := by
  have r0 : writeU32At m base v base = v % 256 := by
    simp only [writeU32At]
    rw [writeByte_other _ _ _ _ (by omega), writeByte_other _ _ _ _ (by omega),
      writeByte_other _ _ _ _ (by omega), writeByte_same]
  have r1 : writeU32At m base v (base + 1) = v / 256 % 256 := by
    simp only [writeU32At]
    rw [writeByte_other _ _ _ _ (by omega), writeByte_other _ _ _ _ (by omega),
      writeByte_same]
  have r2 : writeU32At m base v (base + 2) = v / 65536 % 256 := by
    simp only [writeU32At]
    rw [writeByte_other _ _ _ _ (by omega), writeByte_same]
  have r3 : writeU32At m base v (base + 3) = v / 16777216 % 256 := by
    simp only [writeU32At]
    rw [writeByte_same]
  simp only [readU32At, r0, r1, r2, r3]
  omega

/-- C9: at every base address, aligned or not (no divisibility condition
appears anywhere), mark followed by valid yields true and unmark followed
by valid yields false, because the marker is accessed bytewise through
unaligned reads and writes. -/
theorem c9_alignment_independent (m : Mem) (base : Nat) :
    validAt (markAt m base) base = true ∧ validAt (unmarkAt m base) base = false := by
  refine ⟨?_, ?_⟩ <;>
  · simp only [validAt, markAt, unmarkAt, readU32At_writeU32At]
    decide

/-- C5: end-to-end scenario over a 16-byte region of 0xFF with the 4-byte
marker 0xFAB42069.  Boot one: acquisition succeeds, valid is false,
validate with fill(0) invokes the initializer once and zeroes the 12-byte
payload, the caller sets payload[0] = 1.  A flag-only reset later,
acquisition succeeds again, valid is true, a no-op validate invokes
nothing and keeps payload[0] = 1, the caller bumps it to 2.  A third
flag-only reset repeats this and ends with payload[0] = 3. -/
theorem c5_end_to_end_scenario :
    (take_managed ⟨false, regionFF⟩).1 = some (some handleFF)
    ∧ handleFF.valid = false
    ∧ boot1Val.2.2 = 1
    ∧ boot1Val.1.buff = List.replicate 12 0
    ∧ boot1End.buff.getD 0 0 = 1
    ∧ (take_managed ⟨false, boot1End.mem⟩).1 = some (some boot2Pre)
    ∧ boot2Pre.valid = true
    ∧ boot2Val.2.2 = 0
    ∧ boot2Val.1.buff.getD 0 0 = 1
    ∧ boot2End.buff.getD 0 0 = 2
    ∧ (take_managed ⟨false, boot2End.mem⟩).1 = some (some boot3Pre)
    ∧ boot3Pre.valid = true
    ∧ boot3Val.2.2 = 0
    ∧ boot3End.buff.getD 0 0 = 3 := by
  decide
